import Mathlib

/-!
Shallow embedding of the binary decoding core (src/net/binary/decode.rs):
a sequential byte cursor over an in-memory buffer, the decode error
taxonomy, and the decode contract.  Bytes are modelled as natural numbers,
byte buffers as lists, and the mutable destination buffer of a read call is
threaded explicitly: a read returns the count, the final contents of the
destination buffer, and the final cursor state.  Index arithmetic on usize
is modelled as natural-number arithmetic reduced mod 2 to the 64, and the
slicing and copy operations that can fail a bounds check are modelled by an
Option result, none standing for such a failure.
-/

/-- The usize modulus on a 64-bit target. -/
def USIZE : Nat := 2 ^ 64

/-- The binary cursor: mirrors struct Cursor, with field inner the byte
source and field cursor the read position. -/
structure Cursor where
  inner : List Nat
  cursor : Nat
deriving DecidableEq, Repr

/-- Mirrors Cursor::new: wraps the source and sets the position to 0. -/
def Cursor.new (inner : List Nat) : Cursor :=
  { inner := inner, cursor := 0 }

/-- The end index computed by Cursor::read:
min(self.cursor + buf.len(), inner.len()), the addition in usize. -/
def Cursor.readEnd (c : Cursor) (buf : List Nat) : Nat :=
  min ((c.cursor + buf.length) % USIZE) c.inner.length

/-- The slice inner[self.cursor..end] taken by Cursor::read. -/
def Cursor.readSlice (c : Cursor) (buf : List Nat) : List Nat :=
  (c.inner.take (c.readEnd buf)).drop c.cursor

/-- Mirrors Cursor::read.  The result is (count, final contents of buf,
final cursor state); none models a failed bounds check of the slicing
inner[cursor..end] or of the index buf[..slice.len()].  The function body
never assigns to the cursor field, exactly as the source code never
assigns to self.cursor, so the returned state is c itself. -/
def Cursor.read (c : Cursor) (buf : List Nat) : Option (Nat × List Nat × Cursor) :=
  if c.cursor ≤ c.readEnd buf then
    if (c.readSlice buf).length ≤ buf.length then
      some ((c.readSlice buf).length,
            c.readSlice buf ++ buf.drop (c.readSlice buf).length,
            c)
    else none
  else none

/-- Mirrors enum Error: the two-variant decode error taxonomy,
parameterized by the inner deserialization error type. -/
inductive Error (T : Type) where
  | UnexpectedEnd : Error T
  | Deserialize : T → Error T

/-- Mirrors Error::unexpected_end. -/
def Error.unexpected_end {T : Type} : Error T :=
  Error.UnexpectedEnd

/-- Mirrors Error::deserialize. -/
def Error.deserialize {T : Type} (error : T) : Error T :=
  Error.Deserialize error

/-- Mirrors trait Decode as a dictionary: an implementation for a type U
with associated error type E supplies the decode function.  The mutable
reference to the cursor is modelled by explicit state passing: decode
takes the cursor state and returns the result together with the final
cursor state. -/
structure Decode (U : Type) (E : Type) where
  decode : Cursor → Except (Error E) U × Cursor

/-- Mirrors Cursor::decode: U::decode(self), a pure delegation. -/
def Cursor.decode {U E : Type} (d : Decode U E) (c : Cursor) :
    Except (Error E) U × Cursor :=
  d.decode c

/-- Run a sequence of read calls, threading the cursor state through. -/
def Cursor.runReads : Cursor → List (List Nat) → Option Cursor
  | c, [] => some c
  | c, buf :: bufs =>
    match c.read buf with
    | some (_, _, c') => c'.runReads bufs
    | none => none

/-! Helper lemmas about Cursor.read. -/

/-- Inversion: what a successful read tells us. -/
theorem Cursor.read_some (c : Cursor) (buf : List Nat) (r : Nat)
    (out : List Nat) (c' : Cursor) (h : c.read buf = some (r, out, c')) :
    c' = c ∧ c.cursor ≤ c.readEnd buf ∧ r = (c.readSlice buf).length ∧
      r ≤ buf.length ∧ out = c.readSlice buf ++ buf.drop r := by
  unfold Cursor.read at h
  split_ifs at h with h1 h2
  simp only [Option.some.injEq, Prod.mk.injEq] at h
  obtain ⟨hr, hout, hc⟩ := h
  subst hr
  refine ⟨hc.symm, h1, rfl, h2, ?_⟩
  rw [← hout]

/-- Under the validity conditions the mod is the identity. -/
theorem Cursor.readEnd_eq (c : Cursor) (buf : List Nat)
    (hov : c.cursor + buf.length < USIZE) :
    c.readEnd buf = min (c.cursor + buf.length) c.inner.length := by
  unfold Cursor.readEnd
  rw [Nat.mod_eq_of_lt hov]

/-- The length of the copied slice. -/
theorem Cursor.readSlice_length (c : Cursor) (buf : List Nat)
    (hp : c.cursor ≤ c.inner.length) (hov : c.cursor + buf.length < USIZE) :
    (c.readSlice buf).length = min buf.length (c.inner.length - c.cursor) := by
  unfold Cursor.readSlice
  rw [List.length_drop, List.length_take, Cursor.readEnd_eq c buf hov]
  omega

/-- Evaluation of read in a valid state: both bounds checks pass. -/
theorem Cursor.read_eq (c : Cursor) (buf : List Nat)
    (hp : c.cursor ≤ c.inner.length) (hov : c.cursor + buf.length < USIZE) :
    c.read buf = some ((c.readSlice buf).length,
      c.readSlice buf ++ buf.drop (c.readSlice buf).length, c) := by
  have h1 : c.cursor ≤ c.readEnd buf := by
    rw [Cursor.readEnd_eq c buf hov]; omega
  have h2 : (c.readSlice buf).length ≤ buf.length := by
    rw [Cursor.readSlice_length c buf hp hov]; omega
  unfold Cursor.read
  rw [if_pos h1, if_pos h2]

/-! Claim theorems. -/

/-- C1 (code behavior at the failing input): on a fresh cursor over
[0x01, 0x02, 0x03], a read into a 2-byte destination returns 2 copying
[0x01, 0x02], but the returned cursor state is the unchanged fresh state,
and the second read into a 2-byte destination again returns 2 copying
[0x01, 0x02] — not 1 copying [0x03] as the claim requires — because
Cursor::read never assigns the advanced position back to self.cursor. -/
theorem read_does_not_advance :
    (Cursor.new [1, 2, 3]).read [0, 0]
      = some (2, [1, 2], Cursor.new [1, 2, 3]) ∧
    ((Cursor.new [1, 2, 3]).read [0, 0]).bind
        (fun x => x.2.2.read [0, 0])
      = some (2, [1, 2], Cursor.new [1, 2, 3]) := by
  constructor <;> decide

/-- C2: in every state satisfying the cursor invariant, and for every
destination buffer, read succeeds with a byte count: no bounds check of
the slicing or the copy can fail.  The two length bounds encode the
guarantee of the source language that a slice never holds more than
isize MAX bytes, which rules out wrap-around of cursor + buf.len(). -/
theorem read_total (c : Cursor) (buf : List Nat)
    (hp : c.cursor ≤ c.inner.length)
    (hsrc : c.inner.length ≤ 2 ^ 63 - 1)
    (hbuf : buf.length ≤ 2 ^ 63 - 1) :
    ∃ r out c', c.read buf = some (r, out, c') := by
  have e1 : (2 : Nat) ^ 63 - 1 = 9223372036854775807 := by norm_num
  have e2 : USIZE = 18446744073709551616 := by norm_num [USIZE]
  have hov : c.cursor + buf.length < USIZE := by omega
  exact ⟨_, _, _, Cursor.read_eq c buf hp hov⟩

/-- C2 witness. -/
theorem read_total_witness :
    ∃ r out c', (Cursor.new [1, 2, 3]).read [0, 0] = some (r, out, c') :=
  read_total (Cursor.new [1, 2, 3]) [0, 0] (by decide) (by decide) (by decide)

/-- C4: exhaustion is idempotent — in a state whose position equals the
source length, a read into any destination returns 0, leaves the
destination untouched and leaves the cursor state (hence the position)
unchanged.  The overflow bound rules out wrap-around of the usize sum. -/
theorem read_at_end_idempotent (c : Cursor) (buf : List Nat)
    (h : c.cursor = c.inner.length)
    (hov : c.cursor + buf.length < USIZE) :
    c.read buf = some (0, buf, c) := by
  have hp : c.cursor ≤ c.inner.length := le_of_eq h
  have hs : c.readSlice buf = [] := by
    unfold Cursor.readSlice
    apply List.drop_eq_nil_of_le
    rw [List.length_take, h]
    exact min_le_right _ _
  rw [Cursor.read_eq c buf hp hov, hs]
  simp

/-- C4 witness. -/
theorem read_at_end_idempotent_witness :
    (Cursor.new []).read [0] = some (0, [0], Cursor.new []) :=
  read_at_end_idempotent (Cursor.new []) [0] (by decide) (by decide)

/-- C5: a read never modifies the underlying byte source — the source
held by the returned cursor state equals the source before the call. -/
theorem read_preserves_source (c : Cursor) (buf : List Nat) (r : Nat)
    (out : List Nat) (c' : Cursor)
    (h : c.read buf = some (r, out, c')) :
    c'.inner = c.inner := by
  obtain ⟨hc, -, -, -, -⟩ := Cursor.read_some c buf r out c' h
  rw [hc]

/-- C5 witness. -/
theorem read_preserves_source_witness :
    (Cursor.new [1]).inner = (Cursor.new [1]).inner :=
  read_preserves_source (Cursor.new [1]) [0] 1 [1] (Cursor.new [1]) (by decide)

/-- C6: a read with a zero-length destination returns 0, returns the
empty destination unchanged and leaves the cursor state unchanged. -/
theorem read_zero_length_noop (c : Cursor)
    (hp : c.cursor ≤ c.inner.length)
    (hlt : c.inner.length < USIZE) :
    c.read [] = some (0, [], c) := by
  have hov : c.cursor + ([] : List Nat).length < USIZE := by
    simpa using lt_of_le_of_lt hp hlt
  have he : c.readEnd [] = c.cursor := by
    unfold Cursor.readEnd
    simp only [List.length_nil, Nat.add_zero]
    rw [Nat.mod_eq_of_lt (lt_of_le_of_lt hp hlt)]
    exact min_eq_left hp
  have hs : c.readSlice [] = [] := by
    unfold Cursor.readSlice
    rw [he]
    apply List.drop_eq_nil_of_le
    rw [List.length_take]
    exact min_le_left _ _
  rw [Cursor.read_eq c [] hp hov, hs]
  simp

/-- C6 witness. -/
theorem read_zero_length_noop_witness :
    (Cursor.new [1, 2]).read [] = some (0, [], Cursor.new [1, 2]) :=
  read_zero_length_noop (Cursor.new [1, 2]) (by decide) (by decide)

/-- C7: Cursor::decode delegates: for every implementation d of the
decode contract and every cursor state, Cursor.decode d c is exactly the
result of the implementation applied to that cursor state — no extra
reads, state changes or error transformation. -/
theorem decode_delegates {U E : Type} (d : Decode U E) (c : Cursor) :
    Cursor.decode d c = d.decode c :=
  rfl

/-- C8: the error taxonomy is a sum type with disjoint variants, and each
construction helper builds exactly the corresponding variant, holding the
inner error unmodified. -/
theorem error_constructors :
    (∀ (T : Type), (Error.unexpected_end : Error T) = Error.UnexpectedEnd) ∧
    (∀ (T : Type) (e : T), Error.deserialize e = Error.Deserialize e) ∧
    (∀ (T : Type) (e : T), (Error.UnexpectedEnd : Error T) ≠ Error.Deserialize e) :=
  ⟨fun _ => rfl, fun _ _ => rfl, fun _ _ h => Error.noConfusion h⟩

/-- C8 witness. -/
theorem error_constructors_witness :
    (Error.unexpected_end : Error Nat) = Error.UnexpectedEnd ∧
    Error.deserialize (0 : Nat) = Error.Deserialize 0 ∧
    (Error.UnexpectedEnd : Error Nat) ≠ Error.Deserialize 0 :=
  ⟨error_constructors.1 Nat, error_constructors.2.1 Nat 0,
    error_constructors.2.2 Nat 0⟩

/-- C3: the position invariant 0 ≤ cursor ≤ length(source) is established
by Cursor::new, preserved by every successful read, and across any
sequence of reads the position is non-decreasing and never exceeds the
source length. -/
theorem position_invariant :
    (∀ l : List Nat, (Cursor.new l).cursor = 0 ∧ (Cursor.new l).cursor ≤ l.length) ∧
    (∀ (c : Cursor) (buf : List Nat) (r : Nat) (out : List Nat) (c' : Cursor),
        c.cursor ≤ c.inner.length → c.read buf = some (r, out, c') →
        c.cursor ≤ c'.cursor ∧ c'.cursor ≤ c'.inner.length) ∧
    (∀ (bufs : List (List Nat)) (c c' : Cursor),
        c.cursor ≤ c.inner.length → Cursor.runReads c bufs = some c' →
        c.cursor ≤ c'.cursor ∧ c'.cursor ≤ c'.inner.length) := by
  refine ⟨fun l => ⟨rfl, Nat.zero_le _⟩, ?_, ?_⟩
  · intro c buf r out c' hp h
    obtain ⟨hc, -, -, -, -⟩ := Cursor.read_some c buf r out c' h
    subst hc
    exact ⟨le_refl _, hp⟩
  · intro bufs
    induction bufs with
    | nil =>
      intro c c' hp h
      simp only [Cursor.runReads, Option.some.injEq] at h
      subst h
      exact ⟨le_refl _, hp⟩
    | cons buf bufs ih =>
      intro c c' hp h
      simp only [Cursor.runReads] at h
      cases hr : c.read buf with
      | none => rw [hr] at h; exact Option.noConfusion h
      | some x =>
        obtain ⟨r, out, c1⟩ := x
        rw [hr] at h
        obtain ⟨hc, -, -, -, -⟩ := Cursor.read_some c buf r out c1 hr
        subst hc
        exact ih _ c' hp h

/-- C3 witness. -/
theorem position_invariant_witness :
    (Cursor.new [7]).cursor ≤ (Cursor.new [7]).cursor ∧
    (Cursor.new [7]).cursor ≤ (Cursor.new [7]).inner.length :=
  position_invariant.2.1 (Cursor.new [7]) [0] 1 [7] (Cursor.new [7])
    (by decide) (by decide)

/-- C9: two consecutive reads from the same cursor into destinations of
equal length return the same count and copy the same bytes of the source,
because a read leaves the stored position unchanged. -/
theorem read_repeats (c : Cursor) (buf1 buf2 : List Nat) (r1 : Nat)
    (out1 : List Nat) (c1 : Cursor)
    (hlen : buf1.length = buf2.length)
    (h1 : c.read buf1 = some (r1, out1, c1)) :
    c1 = c ∧ c1.read buf2 = some (r1, out1.take r1 ++ buf2.drop r1, c1) := by
  obtain ⟨hc, hcond1, hr, hrle, hout⟩ := Cursor.read_some c buf1 r1 out1 c1 h1
  subst hc
  have hend : c1.readEnd buf2 = c1.readEnd buf1 := by
    unfold Cursor.readEnd
    rw [hlen]
  have hslice : c1.readSlice buf2 = c1.readSlice buf1 := by
    unfold Cursor.readSlice
    rw [hend]
  have hcond2 : c1.cursor ≤ c1.readEnd buf2 := by
    rw [hend]; exact hcond1
  have hlen2 : (c1.readSlice buf2).length ≤ buf2.length := by
    rw [hslice, ← hlen, ← hr]; exact hrle
  have htake : out1.take r1 = c1.readSlice buf1 := by
    rw [hout, hr]
    exact List.take_left _ _
  refine ⟨rfl, ?_⟩
  unfold Cursor.read
  rw [if_pos hcond2, if_pos hlen2, hslice, ← hr, htake]

/-- C9 witness. -/
theorem read_repeats_witness :
    Cursor.new [1, 2, 3] = Cursor.new [1, 2, 3] ∧
    (Cursor.new [1, 2, 3]).read [9, 9]
      = some (2, ([1, 2] : List Nat).take 2 ++ ([9, 9] : List Nat).drop 2,
          Cursor.new [1, 2, 3]) :=
  read_repeats (Cursor.new [1, 2, 3]) [0, 0] [9, 9] 2 [1, 2]
    (Cursor.new [1, 2, 3]) (by decide) (by decide)

/-- C10: a read writes only the first r positions of the destination,
where r is the returned count: the destination keeps its length and every
element at index r or beyond keeps the value it had before the call. -/
theorem read_writes_only_count (c : Cursor) (buf : List Nat) (r : Nat)
    (out : List Nat) (c' : Cursor)
    (h : c.read buf = some (r, out, c')) :
    out.length = buf.length ∧ out.drop r = buf.drop r := by
  obtain ⟨-, -, hr, hrle, hout⟩ := Cursor.read_some c buf r out c' h
  constructor
  · rw [hout, List.length_append, List.length_drop, ← hr]
    omega
  · rw [hout, hr, List.drop_left]

/-- C10 witness. -/
theorem read_writes_only_count_witness :
    ([1, 0] : List Nat).length = ([0, 0] : List Nat).length ∧
    ([1, 0] : List Nat).drop 1 = ([0, 0] : List Nat).drop 1 :=
  read_writes_only_count (Cursor.new [1]) [0, 0] 1 [1, 0] (Cursor.new [1])
    (by decide)
